import Mathlib

/-!
# Verification of the BetBet betting-market service

Shallow embedding of `src/backend/services/betting_market/main.py` (with the
data model of `src/backend/shared/models.py`): markets, outcomes and positions
of the pool-betting module, and the operations `place_position`,
`update_market_odds`, `resolve_market`, `process_market_payouts` and
`get_orderbook`.

Modelling conventions:
* SQL `DECIMAL` amounts and Python floats are modelled as `ℚ`; `round(x, 2)`
  (Python's round-half-to-even) is modelled exactly on `ℚ`.
* UUIDs are modelled as `Nat` identifiers, Clerk user ids as `String`,
  timestamps (`datetime.utcnow()`) as a `Nat` parameter `now`.
* Lifecycle statuses are the literal strings of the source
  (`"open"`, `"closed"`, `"resolved"`, `"cancelled"`, `"settled"`).
* The relational store is a record of lists.  The list of positions is kept
  newest-first (each insert conses at the head), which is exactly the order
  the source's `ORDER BY created_at DESC LIMIT 100` query reads them in.
* An operation that raises `HTTPException` before `db.commit()` leaves the
  store unchanged (the session in `shared/database.py` rolls back on
  exception); such operations therefore return `Except ApiError ...`, the
  error carrying the HTTP status code and detail string of the source.
-/

/-- An HTTP error, as raised by `HTTPException(status_code=..., detail=...)`. -/
structure ApiError where
  code : Nat
  detail : String
deriving DecidableEq

/-- Row of the `markets` table (`shared/models.py`, class `Market`), restricted
to the columns that the market operations read or write. -/
structure Market where
  id : Nat
  creator_clerk_id : String
  status : String
  total_volume : ℚ
  participant_count : Nat
  resolved_at : Option Nat
  resolution_value : Option String
deriving DecidableEq

/-- Row of the `market_outcomes` table (class `MarketOutcome`).  `current_odds`
and `is_winner` are nullable columns, hence `Option`. -/
structure MarketOutcome where
  id : Nat
  market_id : Nat
  current_odds : Option ℚ
  total_backed : ℚ
  is_winner : Option Bool
deriving DecidableEq

/-- Row of the `market_positions` table (class `MarketPosition`). -/
structure MarketPosition where
  id : Nat
  market_id : Nat
  outcome_id : Nat
  clerk_user_id : String
  position_type : String
  stake : ℚ
  odds : ℚ
  potential_payout : ℚ
  status : String
  created_at : Nat
  settled_at : Option Nat
deriving DecidableEq

/-- The relational store as seen by the betting-market service.  `profiles`
holds the Clerk ids that have a `UserProfile` row.  `positions` is newest
first. -/
structure DBState where
  markets : List Market
  outcomes : List MarketOutcome
  positions : List MarketPosition
  profiles : List String
deriving DecidableEq

/-- Python's `round` to an integer: round half to even. -/
def roundHalfEven (q : ℚ) : ℤ :=
  if q - ⌊q⌋ < 1/2 then ⌊q⌋
  else if (1:ℚ)/2 < q - ⌊q⌋ then ⌊q⌋ + 1
  else if ⌊q⌋ % 2 = 0 then ⌊q⌋ else ⌊q⌋ + 1

/-- Python's `round(x, 2)`. -/
def round2 (q : ℚ) : ℚ := (roundHalfEven (q * 100) : ℚ) / 100

/-- The odds formula of `update_market_odds`:
`implied_probability = min(0.95, total_backed / 100)`,
`new_odds = 1 / max(0.05, implied_probability)`, rounded to 2 decimals.
(The caller only applies it to outcomes with `total_backed > 0`.) -/
def recomputeOdds (total_backed : ℚ) : ℚ :=
  round2 (1 / max (1/20) (min (19/20) (total_backed / 100)))

/-- `update_market_odds(market_id, db)` (main.py): for every outcome of the
market **with `total_backed > 0`**, set
`current_odds = round(1 / max(0.05, min(0.95, total_backed/100)), 2)`.
Outcomes with `total_backed = 0` are skipped and keep their stored odds. -/
def update_market_odds (s : DBState) (market_id : Nat) : DBState :=
  { s with outcomes := s.outcomes.map fun o =>
      if o.market_id = market_id ∧ 0 < o.total_backed then
        { o with current_odds := some (recomputeOdds o.total_backed) }
      else o }

/-- `user_has_positions_in_market(user_id, market_id, db)` (main.py): a
`SELECT count(*)` over `market_positions` filtered by user and market,
returning `count > 0`.  It is given the position list current at the time the
query runs. -/
def user_has_positions_in_market (positions : List MarketPosition)
    (user_id : String) (market_id : Nat) : Bool :=
  0 < (positions.filter fun p =>
    p.clerk_user_id = user_id ∧ p.market_id = market_id).length

/-- `place_position` (main.py).  Faithful to the source order of effects:

1. the market is loaded; `if not market or market.status != 'open'` raises 400;
2. the caller's profile is loaded; missing profile raises 404;
3. `stake <= 0` raises 400;
4. `potential_payout = stake * odds` if `position_type == 'back'`, else
   `stake * (odds - 1)` (every other string takes the lay branch);
5. the new position is `db.add`ed, `market.total_volume += stake`;
6. `participant_count` is incremented when
   `participant_count == 0 or not user_has_positions_in_market(...)`.
   The session has `autoflush=True` (default of the `sessionmaker` in
   `shared/database.py`), so the SELECT inside
   `user_has_positions_in_market` flushes the pending insert of step 5 and
   counts the position being placed; the check therefore runs over the
   position list **including** the new position;
7. `total_backed += stake` on the outcome row with the given id;
8. after commit, `update_market_odds` recomputes the market's odds.

`now` is `datetime.utcnow()`, `new_id` the fresh row id. -/
def place_position (s : DBState) (now : Nat) (user_id : String)
    (market_id outcome_id : Nat) (stake odds : ℚ) (position_type : String)
    (new_id : Nat) : Except ApiError (DBState × MarketPosition) :=
  match s.markets.find? (fun m => m.id = market_id) with
  | none => .error ⟨400, "Market not available for trading"⟩
  | some market =>
    if market.status ≠ "open" then
      .error ⟨400, "Market not available for trading"⟩
    else if user_id ∉ s.profiles then
      .error ⟨404, "User profile not found"⟩
    else if stake ≤ 0 then
      .error ⟨400, "Stake must be positive"⟩
    else
      let potential_payout :=
        if position_type = "back" then stake * odds else stake * (odds - 1)
      let pos : MarketPosition :=
        { id := new_id, market_id := market_id, outcome_id := outcome_id
          clerk_user_id := user_id, position_type := position_type
          stake := stake, odds := odds, potential_payout := potential_payout
          status := "open", created_at := now, settled_at := none }
      let positions' := pos :: s.positions
      let new_count :=
        if market.participant_count = 0 ∨
            ¬ user_has_positions_in_market positions' user_id market_id then
          market.participant_count + 1
        else market.participant_count
      let s1 : DBState :=
        { markets := s.markets.map fun m =>
            if m.id = market_id then
              { m with total_volume := m.total_volume + stake
                       participant_count := new_count }
            else m
          outcomes := s.outcomes.map fun o =>
            if o.id = outcome_id then
              { o with total_backed := o.total_backed + stake }
            else o
          positions := positions'
          profiles := s.profiles }
      .ok (update_market_odds s1 market_id, pos)

/-- `process_market_payouts(market_id, db)` (main.py): look up the outcome of
the market with `is_winner == True` via `scalar_one_or_none()`; if there is
none, return; if there are several, the raised exception is swallowed by the
function's own `except` block, so nothing changes either.  With exactly one
winner `w`, every position of the market on `w` with `position_type == 'back'`
and `status == 'open'` gets `status = 'settled'` and `settled_at = now`. -/
def process_market_payouts (s : DBState) (now : Nat) (market_id : Nat) :
    DBState :=
  match s.outcomes.filter
      (fun o => o.market_id = market_id ∧ o.is_winner = some true) with
  | [w] =>
    { s with positions := s.positions.map fun p =>
        if p.market_id = market_id ∧ p.outcome_id = w.id ∧
            p.position_type = "back" ∧ p.status = "open" then
          { p with status := "settled", settled_at := some now }
        else p }
  | _ => s

/-- `resolve_market` (main.py).  Checks, in source order: market exists (404),
caller is the creator (403), `status == 'closed'` (400).  Then sets
`status = 'resolved'`, `resolved_at = now`, `resolution_value`; if a
`winning_outcome_id` was supplied, sets `is_winner = False` on every outcome
**of this market** and then `is_winner = True` on the outcome with the given
id (the second UPDATE has no market filter in the source); finally runs
`process_market_payouts`. -/
def resolve_market (s : DBState) (now : Nat) (caller_id : String)
    (market_id : Nat) (winning_outcome_id : Option Nat)
    (resolution_value : Option String) : Except ApiError DBState :=
  match s.markets.find? (fun m => m.id = market_id) with
  | none => .error ⟨404, "Market not found"⟩
  | some market =>
    if market.creator_clerk_id ≠ caller_id then
      .error ⟨403, "Only market creator can resolve"⟩
    else if market.status ≠ "closed" then
      .error ⟨400, "Market must be closed to resolve"⟩
    else
      let markets' := s.markets.map fun m =>
        if m.id = market_id then
          { m with status := "resolved", resolved_at := some now
                   resolution_value := resolution_value }
        else m
      let outcomes' :=
        match winning_outcome_id with
        | none => s.outcomes
        | some wid =>
          (s.outcomes.map fun o =>
            if o.market_id = market_id then { o with is_winner := some false }
            else o).map fun o =>
              if o.id = wid then { o with is_winner := some true } else o
      .ok (process_market_payouts
            { s with markets := markets', outcomes := outcomes' } now market_id)

/-- The positions an order-book query reads: open positions of the given
market and outcome, newest first, `LIMIT 100`. -/
def orderbookPositions (s : DBState) (market_id outcome_id : Nat) :
    List MarketPosition :=
  (s.positions.filter fun p =>
    p.market_id = market_id ∧ p.outcome_id = outcome_id ∧
    p.status = "open").take 100

/-- One side of the order book: group the given positions by exact odds value
(the source's dict keyed by `float(position.odds)`), sum the stakes of each
group into its volume, and sort the entries by odds with `r`.  Since the odds
keys of the dict are distinct, Python's `sorted` on the `(odds, volume)` pairs
is a sort by odds. -/
def orderbookSide (ps : List MarketPosition) (r : ℚ → ℚ → Prop)
    [DecidableRel r] : List (ℚ × ℚ) :=
  ((ps.map fun p => p.odds).dedup.insertionSort r).map fun o =>
    (o, ((ps.filter fun p => p.odds = o).map fun p => p.stake).sum)

/-- `get_orderbook(market_id, outcome_id)` (main.py): over the (at most 100
most recent) open positions of the outcome, back positions
(`position_type == 'back'`) are grouped into `back_orders` sorted descending
by odds, all other positions into `lay_orders` sorted ascending. -/
def get_orderbook (s : DBState) (market_id outcome_id : Nat) :
    List (ℚ × ℚ) × List (ℚ × ℚ) :=
  let ps := orderbookPositions s market_id outcome_id
  (orderbookSide (ps.filter fun p => p.position_type = "back") (· ≥ ·),
   orderbookSide (ps.filter fun p => ¬ p.position_type = "back") (· ≤ ·))

/-- A position-placement request, for stating properties of sequences of
`place_position` calls. -/
structure PlaceReq where
  user : String
  outcome_id : Nat
  stake : ℚ
  odds : ℚ
  position_type : String
deriving DecidableEq

/-- Run a list of `place_position` requests against one market in order,
stopping at the first error. -/
def place_many (s : DBState) (market_id : Nat) : List PlaceReq →
    Except ApiError DBState
  | [] => .ok s
  | r :: rs =>
    match place_position s 0 r.user market_id r.outcome_id r.stake r.odds
        r.position_type 0 with
    | .error e => .error e
    | .ok (s', _) => place_many s' market_id rs

/-! ## Concrete stores used as witnesses and counterexamples -/

/-- A fresh store: one open market (id 1, creator `"carol"`) with two outcomes
(ids 1 and 2, both at the creation default `current_odds = 2.0` and
`total_backed = 0`), no positions, two user profiles. -/
def exS0 : DBState :=
  { markets := [⟨1, "carol", "open", 0, 0, none, none⟩]
    outcomes := [⟨1, 1, some 2, 0, none⟩, ⟨2, 1, some 2, 0, none⟩]
    positions := []
    profiles := ["u", "v"] }

/-- The position created by `place_position exS0 0 "u" 1 1 10 2 "back" 0`. -/
def exP : MarketPosition :=
  ⟨0, 1, 1, "u", "back", 10, 2, 20, "open", 0, none⟩

/-- The store after `"u"` backs outcome 1 of market 1 with stake 10 at odds 2:
volume 10, one participant, outcome 1 re-priced, outcome 2 untouched (its
`total_backed` is 0, so `update_market_odds` skips it). -/
def exS1 : DBState :=
  { markets := [⟨1, "carol", "open", 10, 1, none, none⟩]
    outcomes := [⟨1, 1, some (recomputeOdds 10), 10, none⟩,
                 ⟨2, 1, some 2, 0, none⟩]
    positions := [exP]
    profiles := ["u", "v"] }

/-- The position created by `place_position exS1 1 "v" 1 1 10 2 "back" 1`. -/
def exP2 : MarketPosition :=
  ⟨1, 1, 1, "v", "back", 10, 2, 20, "open", 1, none⟩

/-- The store after the distinct user `"v"` also backs outcome 1 of market 1:
volume 20, but `participant_count` still 1. -/
def exS2 : DBState :=
  { markets := [⟨1, "carol", "open", 20, 1, none, none⟩]
    outcomes := [⟨1, 1, some (recomputeOdds 20), 20, none⟩,
                 ⟨2, 1, some 2, 0, none⟩]
    positions := [exP2, exP]
    profiles := ["u", "v"] }

/-- Open back position on outcome 1 of market 1. -/
def exPA : MarketPosition := ⟨10, 1, 1, "u", "back", 10, 2, 20, "open", 3, none⟩

/-- Open lay position on outcome 1 of market 1. -/
def exPB : MarketPosition := ⟨11, 1, 1, "v", "lay", 5, 2, 5, "open", 4, none⟩

/-- Open back position on outcome 2 (a losing outcome) of market 1. -/
def exPC : MarketPosition := ⟨12, 1, 2, "u", "back", 15, 3, 45, "open", 5, none⟩

/-- Cancelled back position on outcome 1 of market 1. -/
def exPD : MarketPosition :=
  ⟨13, 1, 1, "v", "back", 7, 2, 14, "cancelled", 2, none⟩

/-- A store ready for resolution: market 1 is closed (creator `"carol"`) with
outcomes 1 and 2; market 2 is still open with outcome 3. -/
def exR0 : DBState :=
  { markets := [⟨1, "carol", "closed", 30, 2, none, none⟩,
                ⟨2, "carol", "open", 0, 0, none, none⟩]
    outcomes := [⟨1, 1, some 2, 10, none⟩, ⟨2, 1, some 2, 20, none⟩,
                 ⟨3, 2, some 2, 0, none⟩]
    positions := [exPA, exPB, exPC, exPD]
    profiles := ["u", "v"] }

/-- `exPA` after settlement at time 9. -/
def exPA_settled : MarketPosition :=
  ⟨10, 1, 1, "u", "back", 10, 2, 20, "settled", 3, some 9⟩

/-- `exR0` after `resolve_market exR0 9 "carol" 1 (some 1) (some "yes")`:
market 1 resolved, outcome 1 the winner, `exPA` settled, everything else
untouched. -/
def exR1 : DBState :=
  { markets := [⟨1, "carol", "resolved", 30, 2, some 9, some "yes"⟩,
                ⟨2, "carol", "open", 0, 0, none, none⟩]
    outcomes := [⟨1, 1, some 2, 10, some true⟩, ⟨2, 1, some 2, 20, some false⟩,
                 ⟨3, 2, some 2, 0, none⟩]
    positions := [exPA_settled, exPB, exPC, exPD]
    profiles := ["u", "v"] }

/-- `exR0` after `resolve_market exR0 9 "carol" 1 (some 3) (some "no")`, where
outcome 3 belongs to the *other*, still-open market 2: market 1 is resolved
with none of its outcomes a winner, outcome 3 of the unresolved market 2 is
flagged `is_winner`, and no position settles. -/
def exR2 : DBState :=
  { markets := [⟨1, "carol", "resolved", 30, 2, some 9, some "no"⟩,
                ⟨2, "carol", "open", 0, 0, none, none⟩]
    outcomes := [⟨1, 1, some 2, 10, some false⟩, ⟨2, 1, some 2, 20, some false⟩,
                 ⟨3, 2, some 2, 0, some true⟩]
    positions := [exPA, exPB, exPC, exPD]
    profiles := ["u", "v"] }

/-- The order-book example of the spec: open positions
`{odds 2.0, stake 10, back}`, `{odds 2.0, stake 5, back}`,
`{odds 1.5, stake 20, lay}` on outcome 1 of market 1 (newest first). -/
def exOB : DBState :=
  { markets := [⟨1, "carol", "open", 35, 2, none, none⟩]
    outcomes := [⟨1, 1, some 2, 35, none⟩]
    positions := [⟨20, 1, 1, "u", "back", 10, 2, 20, "open", 3, none⟩,
                  ⟨21, 1, 1, "v", "back", 5, 2, 10, "open", 2, none⟩,
                  ⟨22, 1, 1, "u", "lay", 20, 3/2, 10, "open", 1, none⟩]
    profiles := ["u", "v"] }

/-! ## Lemmas -/

/-- Evaluation of the odds formula on the spec's data points:
`total_backed = 100` gives odds `1.05`. -/
lemma recomputeOdds_100 : recomputeOdds 100 = 21/20 := by
  have hmm : max ((1:ℚ)/20) (min ((19:ℚ)/20) (100/100)) = 19/20 := by norm_num
  have harg : (1:ℚ) / ((19:ℚ)/20) * 100 = 2000/19 := by norm_num
  have hfl : ⌊(2000/19 : ℚ)⌋ = 105 := by
    rw [Int.floor_eq_iff]
    norm_num
  unfold recomputeOdds round2 roundHalfEven
  rw [hmm, harg, hfl]
  norm_num

/-- `total_backed = 50` gives odds `2.00`. -/
lemma recomputeOdds_50 : recomputeOdds 50 = 2 := by
  have hmm : max ((1:ℚ)/20) (min ((19:ℚ)/20) (50/100)) = 1/2 := by norm_num
  have harg : (1:ℚ) / ((1:ℚ)/2) * 100 = 200 := by norm_num
  have hfl : ⌊(200 : ℚ)⌋ = 200 := by norm_num
  unfold recomputeOdds round2 roundHalfEven
  rw [hmm, harg, hfl]
  norm_num

/-- The formula value at `total_backed = 0` would be `20.00` (but
`update_market_odds` never applies the formula there). -/
lemma recomputeOdds_0 : recomputeOdds 0 = 20 := by
  have hmm : max ((1:ℚ)/20) (min ((19:ℚ)/20) (0/100)) = 1/20 := by norm_num
  have harg : (1:ℚ) / ((1:ℚ)/20) * 100 = 2000 := by norm_num
  have hfl : ⌊(2000 : ℚ)⌋ = 2000 := by norm_num
  unfold recomputeOdds round2 roundHalfEven
  rw [hmm, harg, hfl]
  norm_num

/-- `find?` commutes with a map that preserves the predicate. -/
lemma find?_map_pres {α} (g : α → α) (p : α → Bool) (l : List α)
    (h : ∀ a, p (g a) = p a) :
    (l.map g).find? p = (l.find? p).map g := by
  induction l with
  | nil => simp
  | cons a t ih =>
    cases hpa : p a with
    | true => simp [List.find?, h a, hpa]
    | false => simp [List.find?, h a, hpa, ih]

/-- Destructor for a successful `place_position`: the checks that must have
passed and the exact resulting store. -/
lemma place_position_ok_elim {s : DBState} {now : Nat} {uid : String}
    {mid oid : Nat} {stake odds : ℚ} {pt : String} {pid : Nat}
    {s' : DBState} {p : MarketPosition}
    (h : place_position s now uid mid oid stake odds pt pid = .ok (s', p)) :
    ∃ m, s.markets.find? (fun m => m.id = mid) = some m ∧
      m.status = "open" ∧ uid ∈ s.profiles ∧ 0 < stake ∧
      p = { id := pid, market_id := mid, outcome_id := oid
            clerk_user_id := uid, position_type := pt
            stake := stake, odds := odds
            potential_payout :=
              if pt = "back" then stake * odds else stake * (odds - 1)
            status := "open", created_at := now, settled_at := none } ∧
      s' = update_market_odds
        { markets := s.markets.map fun x =>
            if x.id = mid then
              { x with total_volume := x.total_volume + stake
                       participant_count :=
                        if m.participant_count = 0 ∨
                            ¬ user_has_positions_in_market (p :: s.positions) uid mid then
                          m.participant_count + 1
                        else m.participant_count }
            else x
          outcomes := s.outcomes.map fun o =>
            if o.id = oid then { o with total_backed := o.total_backed + stake }
            else o
          positions := p :: s.positions
          profiles := s.profiles } mid := by
  unfold place_position at h
  split at h
  · simp at h
  next m hm =>
    by_cases hst : m.status = "open"
    · rw [if_neg (fun hne => hne hst)] at h
      by_cases hu : uid ∈ s.profiles
      · rw [if_neg (fun hn => hn hu)] at h
        by_cases hs0 : stake ≤ 0
        · rw [if_pos hs0] at h; simp at h
        · rw [if_neg hs0] at h
          dsimp only at h
          rw [Except.ok.injEq, Prod.mk.injEq] at h
          obtain ⟨hA, hB⟩ := h
          subst hB
          exact ⟨m, hm, hst, hu, lt_of_not_le hs0, rfl, hA.symm⟩
      · rw [if_pos hu] at h; simp at h
    · rw [if_pos hst] at h; simp at h

/-- A filter over a duplicate-free list whose predicate holds exactly at one
member yields that singleton. -/
lemma filter_eq_singleton_of_mem {α} {p : α → Bool} {l : List α} {w : α}
    (hnd : l.Nodup) (hmem : w ∈ l) (hw : p w = true)
    (huniq : ∀ x ∈ l, p x = true → x = w) : l.filter p = [w] := by
  induction l with
  | nil => simp at hmem
  | cons a t ih =>
    rw [List.nodup_cons] at hnd
    rcases List.mem_cons.mp hmem with rfl | hmem'
    · rw [List.filter_cons, if_pos hw]
      have : t.filter p = [] := by
        rw [List.filter_eq_nil_iff]
        intro x hx hpx
        exact absurd ((huniq x (List.mem_cons_of_mem _ hx) hpx) ▸ hx) hnd.1
      rw [this]
    · have hpa : p a = false := by
        rcases Bool.eq_false_or_eq_true (p a) with ht | hf
        · exact absurd ((huniq a (List.mem_cons_self a t) ht) ▸ hmem') hnd.1
        · exact hf
      rw [List.filter_cons, if_neg (by simp [hpa])]
      exact ih hnd.2 hmem' (fun x hx => huniq x (List.mem_cons_of_mem _ hx))

/-- After `resolve_market` clears `is_winner` on a market\'s outcomes and then
flags the outcome with id `wid`, the flagged outcomes of the market are
exactly the designated one (given globally distinct outcome ids and a
designated outcome belonging to the market). -/
lemma winners_filter (l : List MarketOutcome) (mid wid : Nat)
    (w : MarketOutcome) (hmem : w ∈ l) (hid : w.id = wid)
    (hmid : w.market_id = mid)
    (hnd : (l.map fun o => o.id).Nodup) :
    ((l.map fun o =>
        if o.market_id = mid then { o with is_winner := some false }
        else o).map fun o =>
          if o.id = wid then { o with is_winner := some true } else o).filter
      (fun o => o.market_id = mid ∧ o.is_winner = some true) =
    [{ w with is_winner := some true }] := by
  rw [List.map_map, List.filter_map]
  have hfilter : l.filter
      ((fun o => decide (o.market_id = mid ∧ o.is_winner = some true)) ∘
        ((fun o => if o.id = wid then { o with is_winner := some true } else o) ∘
          (fun o => if o.market_id = mid then { o with is_winner := some false } else o))) = [w] := by
    apply filter_eq_singleton_of_mem (hnd.of_map _) hmem
    · simp [hmid, hid]
    · intro x hx hpx
      by_cases hxid : x.id = wid
      · exact List.inj_on_of_nodup_map hnd hx hmem (by rw [hxid, hid])
      · exfalso
        by_cases hxmid : x.market_id = mid
        · simp [hxmid, hxid] at hpx
        · simp [hxmid, hxid] at hpx
  rw [hfilter]
  simp [hmid, hid]

/-- Destructor for a successful `resolve_market` with a winning outcome id. -/
lemma resolve_market_ok_elim_some {s : DBState} {now : Nat} {cid : String}
    {mid wid : Nat} {rv : Option String} {s' : DBState}
    (h : resolve_market s now cid mid (some wid) rv = .ok s') :
    ∃ m, s.markets.find? (fun m => m.id = mid) = some m ∧
      m.creator_clerk_id = cid ∧ m.status = "closed" ∧
      s' = process_market_payouts
        { markets := s.markets.map fun x =>
            if x.id = mid then
              { x with status := "resolved", resolved_at := some now
                       resolution_value := rv }
            else x
          outcomes := (s.outcomes.map fun o =>
              if o.market_id = mid then { o with is_winner := some false }
              else o).map fun o =>
                if o.id = wid then { o with is_winner := some true } else o
          positions := s.positions
          profiles := s.profiles } now mid := by
  unfold resolve_market at h
  split at h
  · simp at h
  next m hm =>
    by_cases hc : m.creator_clerk_id = cid
    · rw [if_neg (fun hne => hne hc)] at h
      by_cases hst : m.status = "closed"
      · rw [if_neg (fun hne => hne hst)] at h
        dsimp only at h
        rw [Except.ok.injEq] at h
        exact ⟨m, hm, hc, hst, h.symm⟩
      · rw [if_pos hst] at h; simp at h
    · rw [if_pos hc] at h; simp at h

/-- Destructor for a successful `resolve_market` without a winning outcome
id. -/
lemma resolve_market_ok_elim_none {s : DBState} {now : Nat} {cid : String}
    {mid : Nat} {rv : Option String} {s' : DBState}
    (h : resolve_market s now cid mid none rv = .ok s') :
    ∃ m, s.markets.find? (fun m => m.id = mid) = some m ∧
      m.creator_clerk_id = cid ∧ m.status = "closed" ∧
      s' = process_market_payouts
        { markets := s.markets.map fun x =>
            if x.id = mid then
              { x with status := "resolved", resolved_at := some now
                       resolution_value := rv }
            else x
          outcomes := s.outcomes
          positions := s.positions
          profiles := s.profiles } now mid := by
  unfold resolve_market at h
  split at h
  · simp at h
  next m hm =>
    by_cases hc : m.creator_clerk_id = cid
    · rw [if_neg (fun hne => hne hc)] at h
      by_cases hst : m.status = "closed"
      · rw [if_neg (fun hne => hne hst)] at h
        dsimp only at h
        rw [Except.ok.injEq] at h
        exact ⟨m, hm, hc, hst, h.symm⟩
      · rw [if_pos hst] at h; simp at h
    · rw [if_pos hc] at h; simp at h

lemma update_market_odds_positions (s : DBState) (mid : Nat) :
    (update_market_odds s mid).positions = s.positions := rfl

lemma update_market_odds_markets (s : DBState) (mid : Nat) :
    (update_market_odds s mid).markets = s.markets := rfl

lemma process_market_payouts_outcomes (s : DBState) (now mid : Nat) :
    (process_market_payouts s now mid).outcomes = s.outcomes := by
  unfold process_market_payouts
  split <;> rfl

lemma process_market_payouts_markets (s : DBState) (now mid : Nat) :
    (process_market_payouts s now mid).markets = s.markets := by
  unfold process_market_payouts
  split <;> rfl

lemma process_market_payouts_payout_map (s : DBState) (now mid : Nat) :
    (process_market_payouts s now mid).positions.map
        (fun p => p.potential_payout) =
      s.positions.map fun p => p.potential_payout := by
  unfold process_market_payouts
  split
  next w heq =>
    rw [List.map_map]
    refine List.map_congr_left fun p _ => ?_
    by_cases hc : p.market_id = mid ∧ p.outcome_id = w.id ∧
        p.position_type = "back" ∧ p.status = "open"
    · simp [hc]
    · simp [if_neg hc]
  next => rfl

/-- C3 helper: the positions after a successful resolution with a designated
winning outcome of the market. -/
lemma resolve_positions_settled {s : DBState} {now : Nat} {cid : String}
    {mid wid : Nat} {rv : Option String} {s' : DBState} {w : MarketOutcome}
    (hnd : (s.outcomes.map fun o => o.id).Nodup)
    (hw : w ∈ s.outcomes) (hid : w.id = wid) (hmid : w.market_id = mid)
    (h : resolve_market s now cid mid (some wid) rv = .ok s') :
    s'.positions = s.positions.map fun p =>
      if p.market_id = mid ∧ p.outcome_id = wid ∧
          p.position_type = "back" ∧ p.status = "open" then
        { p with status := "settled", settled_at := some now }
      else p := by
  obtain ⟨m, hm, hc, hst, rfl⟩ := resolve_market_ok_elim_some h
  unfold process_market_payouts
  rw [show ((s.outcomes.map fun o =>
      if o.market_id = mid then { o with is_winner := some false }
      else o).map fun o =>
        if o.id = wid then { o with is_winner := some true } else o).filter
      (fun o => o.market_id = mid ∧ o.is_winner = some true) =
      [{ w with is_winner := some true }] from
    winners_filter s.outcomes mid wid w hw hid hmid hnd]
  dsimp only
  rw [hid]

lemma place_ex_eval :
    place_position exS0 0 "u" 1 1 10 2 "back" 0 = .ok (exS1, exP) := by
  simp [place_position, exS0, exS1, exP, update_market_odds,
    user_has_positions_in_market, List.find?]
  norm_num

lemma place_ex2_eval :
    place_position exS1 1 "v" 1 1 10 2 "back" 1 = .ok (exS2, exP2) := by
  simp [place_position, exS1, exS2, exP, exP2, update_market_odds,
    user_has_positions_in_market, List.find?]
  norm_num

lemma place_many_ex_eval :
    place_many exS0 1 [⟨"u", 1, 10, 2, "back"⟩] = .ok exS1 := by
  simp [place_many, place_ex_eval]

lemma resolve_ex_eval :
    resolve_market exR0 9 "carol" 1 (some 1) (some "yes") = .ok exR1 := by
  simp [resolve_market, process_market_payouts, exR0, exR1, exPA, exPB, exPC,
    exPD, exPA_settled, List.find?]

lemma resolve_ex2_eval :
    resolve_market exR0 9 "carol" 1 (some 3) (some "no") = .ok exR2 := by
  simp [resolve_market, process_market_payouts, exR0, exR2, exPA, exPB, exPC,
    exPD, List.find?]

/-- C1, counterexample: placing a position leaves an outcome with
`total_backed = 0` at its stored odds (2.0 here), not at the formula value
20.00 the claim asserts for every outcome. -/
theorem betbet_c1_counterexample :
    place_position exS0 0 "u" 1 1 10 2 "back" 0 = .ok (exS1, exP) ∧
    exS1.outcomes.find? (fun o => o.id = 2) = some ⟨2, 1, some 2, 0, none⟩ ∧
    recomputeOdds 0 = 20 ∧
    (some (2:ℚ) : Option ℚ) ≠ some (recomputeOdds 0) :=
  ⟨place_ex_eval, by simp [exS1, List.find?], recomputeOdds_0,
    by rw [recomputeOdds_0]; norm_num⟩

/-- C1 (amended): after a successful `place_position`, every outcome of the
market whose (updated) `total_backed` is positive has
`current_odds = round2 (1 / max 0.05 (min 0.95 (total_backed/100)))`; an
outcome whose `total_backed` is 0 keeps its previous `current_odds`; the
formula gives 1.05 at `total_backed = 100` and 2.00 at 50. -/
theorem betbet_c1 {s : DBState} {now : Nat} {uid : String} {mid oid : Nat}
    {stake odds : ℚ} {pt : String} {pid : Nat} {s' : DBState}
    {p : MarketPosition}
    (h : place_position s now uid mid oid stake odds pt pid = .ok (s', p)) :
    s'.outcomes = (s.outcomes.map fun o =>
      if o.market_id = mid ∧
          0 < (if o.id = oid then o.total_backed + stake else o.total_backed) then
        { o with
          total_backed := if o.id = oid then o.total_backed + stake else o.total_backed
          current_odds := some (recomputeOdds
            (if o.id = oid then o.total_backed + stake else o.total_backed)) }
      else { o with
        total_backed := if o.id = oid then o.total_backed + stake else o.total_backed }) ∧
    recomputeOdds 100 = 21/20 ∧ recomputeOdds 50 = 2 := by
  refine ⟨?_, recomputeOdds_100, recomputeOdds_50⟩
  obtain ⟨m, hm, hst, hu, hs, hp, rfl⟩ := place_position_ok_elim h
  show (List.map _ (List.map _ s.outcomes)) = _
  rw [List.map_map]
  refine List.map_congr_left fun o _ => ?_
  by_cases h1 : o.id = oid
  · by_cases h2 : o.market_id = mid ∧ 0 < o.total_backed + stake
    · simp [h1, h2]
    · simp [h1, h2]
  · by_cases h2 : o.market_id = mid ∧ 0 < o.total_backed
    · simp [h1, h2]
    · simp [h1, h2]

theorem betbet_c1_witness :
    exS1.outcomes = (exS0.outcomes.map fun o =>
      if o.market_id = 1 ∧
          0 < (if o.id = 1 then o.total_backed + 10 else o.total_backed) then
        { o with
          total_backed := if o.id = 1 then o.total_backed + 10 else o.total_backed
          current_odds := some (recomputeOdds
            (if o.id = 1 then o.total_backed + 10 else o.total_backed)) }
      else { o with
        total_backed := if o.id = 1 then o.total_backed + 10 else o.total_backed }) ∧
    recomputeOdds 100 = 21/20 ∧ recomputeOdds 50 = 2 :=
  betbet_c1 place_ex_eval

/-- C2 is wrong on the code: the first-position check runs *after* the new
position is inserted into the session and counts it, so `participant_count`
is bumped only when it is 0.  Here two distinct users `"u"` and `"v"` each
place their first position in market 1, yet `participant_count` ends at 1,
not 2. -/
theorem betbet_c2_failing_run :
    place_position exS0 0 "u" 1 1 10 2 "back" 0 = .ok (exS1, exP) ∧
    place_position exS1 1 "v" 1 1 10 2 "back" 1 = .ok (exS2, exP2) ∧
    "u" ≠ "v" ∧
    exS0.markets.map (fun m => m.participant_count) = [0] ∧
    exS1.markets.map (fun m => m.participant_count) = [1] ∧
    exS2.markets.map (fun m => m.participant_count) = [1] :=
  ⟨place_ex_eval, place_ex2_eval, by simp, by simp [exS0], by simp [exS1],
    by simp [exS2]⟩

/-- C4: a successful `place_position` stores
`potential_payout = stake * odds` for a back position and
`stake * (odds - 1)` for a lay position, and no later operation
(`update_market_odds`, `process_market_payouts`, `resolve_market`) ever
changes any stored `potential_payout`. -/
theorem betbet_c4 {s : DBState} {now : Nat} {uid : String} {mid oid : Nat}
    {stake odds : ℚ} {pt : String} {pid : Nat} {s' : DBState}
    {p : MarketPosition}
    (h : place_position s now uid mid oid stake odds pt pid = .ok (s', p))
    (_hs : 0 < stake) (_ho : 1 ≤ odds) :
    (pt = "back" → p.potential_payout = stake * odds) ∧
    (pt = "lay" → p.potential_payout = stake * (odds - 1)) ∧
    s'.positions = p :: s.positions ∧
    (∀ t mid2, (update_market_odds t mid2).positions = t.positions) ∧
    (∀ t n2 mid2, (process_market_payouts t n2 mid2).positions.map
        (fun q => q.potential_payout) =
      t.positions.map fun q => q.potential_payout) ∧
    (∀ t n2 cid mid2 wido rv t',
      resolve_market t n2 cid mid2 wido rv = .ok t' →
      t'.positions.map (fun q => q.potential_payout) =
        t.positions.map fun q => q.potential_payout) := by
  obtain ⟨m, hm, hst, hu, hs', hp, rfl⟩ := place_position_ok_elim h
  refine ⟨?_, ?_, rfl, fun t mid2 => rfl,
    fun t n2 mid2 => process_market_payouts_payout_map t n2 mid2, ?_⟩
  · intro hb; rw [hp]; simp [hb]
  · intro hb; rw [hp]; simp [hb]
  · intro t n2 cid mid2 wido rv t' hres
    cases wido with
    | none =>
      obtain ⟨m2, hm2, hc2, hst2, rfl⟩ := resolve_market_ok_elim_none hres
      exact process_market_payouts_payout_map _ n2 mid2
    | some wid =>
      obtain ⟨m2, hm2, hc2, hst2, rfl⟩ := resolve_market_ok_elim_some hres
      exact process_market_payouts_payout_map _ n2 mid2

theorem betbet_c4_witness :
    ("back" = "back" → exP.potential_payout = 10 * 2) ∧
    ("back" = "lay" → exP.potential_payout = 10 * (2 - 1)) ∧
    exS1.positions = exP :: exS0.positions ∧
    (∀ t mid2, (update_market_odds t mid2).positions = t.positions) ∧
    (∀ t n2 mid2, (process_market_payouts t n2 mid2).positions.map
        (fun q => q.potential_payout) =
      t.positions.map fun q => q.potential_payout) ∧
    (∀ t n2 cid mid2 wido rv t',
      resolve_market t n2 cid mid2 wido rv = .ok t' →
      t'.positions.map (fun q => q.potential_payout) =
        t.positions.map fun q => q.potential_payout) :=
  betbet_c4 place_ex_eval (by norm_num) (by norm_num)

/-- C3: resolving a closed market with a designated winning outcome `w` of
that market settles exactly the open back positions on `w` (setting
`status = "settled"` and `settled_at = now`) and maps every other position —
back positions on other outcomes, lay positions, non-open positions — to
itself. -/
theorem betbet_c3 {s : DBState} {now : Nat} {cid : String}
    {mid wid : Nat} {rv : Option String} {s' : DBState} {w : MarketOutcome}
    (hnd : (s.outcomes.map fun o => o.id).Nodup)
    (hw : w ∈ s.outcomes) (hid : w.id = wid) (hmid : w.market_id = mid)
    (h : resolve_market s now cid mid (some wid) rv = .ok s') :
    s'.positions = s.positions.map fun p =>
      if p.market_id = mid ∧ p.outcome_id = wid ∧
          p.position_type = "back" ∧ p.status = "open" then
        { p with status := "settled", settled_at := some now }
      else p :=
  resolve_positions_settled hnd hw hid hmid h

theorem betbet_c3_witness :
    exR1.positions = exR0.positions.map fun p =>
      if p.market_id = 1 ∧ p.outcome_id = 1 ∧
          p.position_type = "back" ∧ p.status = "open" then
        { p with status := "settled", settled_at := some 9 }
      else p :=
  betbet_c3 (w := ⟨1, 1, some 2, 10, none⟩) (by simp [exR0]) (by simp [exR0])
    rfl rfl resolve_ex_eval

/-- C5 (amended): when `resolve_market` succeeds with a winning outcome id
that names one of the market's own outcomes, exactly one outcome of that
market carries `is_winner = true` afterwards — the designated one; when no
winning outcome id is supplied, resolution succeeds leaving every outcome
record unchanged (in particular with no winner flagged). -/
theorem betbet_c5 {s : DBState} {now : Nat} {cid : String}
    {mid wid : Nat} {rv : Option String} {s' : DBState} {w : MarketOutcome}
    (hnd : (s.outcomes.map fun o => o.id).Nodup)
    (hw : w ∈ s.outcomes) (hid : w.id = wid) (hmid : w.market_id = mid)
    (h : resolve_market s now cid mid (some wid) rv = .ok s') :
    (s'.outcomes.filter fun o =>
        o.market_id = mid ∧ o.is_winner = some true) =
      [{ w with is_winner := some true }] ∧
    (∀ t n2 cid2 mid2 rv2 t',
      resolve_market t n2 cid2 mid2 none rv2 = .ok t' →
      t'.outcomes = t.outcomes) := by
  constructor
  · obtain ⟨m, hm, hc, hst, rfl⟩ := resolve_market_ok_elim_some h
    rw [process_market_payouts_outcomes]
    exact winners_filter s.outcomes mid wid w hw hid hmid hnd
  · intro t n2 cid2 mid2 rv2 t' hres
    obtain ⟨m, hm, hc, hst, rfl⟩ := resolve_market_ok_elim_none hres
    rw [process_market_payouts_outcomes]

/-- C5, counterexample: resolving closed market 1 with a winning outcome id
that belongs to the still-open market 2 succeeds, leaves market 1 resolved
with *zero* of its outcomes flagged as winner, and flags an outcome of the
unresolved market 2. -/
theorem betbet_c5_counterexample :
    resolve_market exR0 9 "carol" 1 (some 3) (some "no") = .ok exR2 ∧
    (exR2.markets.filter fun m => m.id = 1) =
      [⟨1, "carol", "resolved", 30, 2, some 9, some "no"⟩] ∧
    (exR2.outcomes.filter fun o =>
      o.market_id = 1 ∧ o.is_winner = some true) = [] ∧
    (exR2.markets.filter fun m => m.id = 2) =
      [⟨2, "carol", "open", 0, 0, none, none⟩] ∧
    (exR2.outcomes.filter fun o =>
      o.market_id = 2 ∧ o.is_winner = some true) =
      [⟨3, 2, some 2, 0, some true⟩] :=
  ⟨resolve_ex2_eval, by simp [exR2], by simp [exR2], by simp [exR2],
    by simp [exR2]⟩

theorem betbet_c5_witness :
    (exR1.outcomes.filter fun o =>
        o.market_id = 1 ∧ o.is_winner = some true) =
      [{ (⟨1, 1, some 2, 10, none⟩ : MarketOutcome) with
          is_winner := some true }] ∧
    (∀ t n2 cid2 mid2 rv2 t',
      resolve_market t n2 cid2 mid2 none rv2 = .ok t' →
      t'.outcomes = t.outcomes) :=
  betbet_c5 (w := ⟨1, 1, some 2, 10, none⟩) (by simp [exR0]) (by simp [exR0])
    rfl rfl resolve_ex_eval

/-- C6: placing on a market whose status is `closed`, `resolved` or
`cancelled` is rejected with the 400 "Market not available for trading"
error, and a non-positive stake is always rejected with an error; a rejected
call returns no new store, so no position, market or outcome changes. -/
theorem betbet_c6 {s : DBState} {mid : Nat} {m : Market}
    (hm : s.markets.find? (fun x => x.id = mid) = some m) :
    (∀ now uid oid stake odds pt pid,
      m.status = "closed" ∨ m.status = "resolved" ∨ m.status = "cancelled" →
      place_position s now uid mid oid stake odds pt pid =
        .error ⟨400, "Market not available for trading"⟩) ∧
    (∀ now uid oid stake odds pt pid, stake ≤ 0 →
      ∃ e, place_position s now uid mid oid stake odds pt pid = .error e) := by
  constructor
  · intro now uid oid stake odds pt pid hstat
    have hne : m.status ≠ "open" := by
      rcases hstat with h | h | h <;> simp [h]
    unfold place_position
    rw [hm]
    dsimp only
    rw [if_pos hne]
  · intro now uid oid stake odds pt pid hstake
    unfold place_position
    rw [hm]
    dsimp only
    by_cases hopen : m.status = "open"
    · rw [if_neg (fun hne => hne hopen)]
      by_cases hu : uid ∈ s.profiles
      · rw [if_neg (fun hn => hn hu), if_pos hstake]
        exact ⟨_, rfl⟩
      · rw [if_pos hu]
        exact ⟨_, rfl⟩
    · rw [if_pos hopen]
      exact ⟨_, rfl⟩

theorem betbet_c6_witness :
    (place_position exR0 0 "u" 1 1 10 2 "back" 50 =
      .error ⟨400, "Market not available for trading"⟩) ∧
    ∃ e, place_position exR0 0 "u" 2 3 0 2 "back" 50 = .error e :=
  ⟨(betbet_c6 (m := ⟨1, "carol", "closed", 30, 2, none, none⟩)
      (by simp [exR0, List.find?])).1 0 "u" 1 10 2 "back" 50 (Or.inl rfl),
   (betbet_c6 (m := ⟨2, "carol", "open", 0, 0, none, none⟩)
      (by simp [exR0, List.find?])).2 0 "u" 3 0 2 "back" 50 (by norm_num)⟩

/-- C7: `resolve_market` on an existing market is rejected with the 403
Forbidden error whenever the caller is not the creator, and with the 400
invalid-state error whenever the creator calls it on a market whose status is
not `closed`; a rejected call returns no new store, so nothing changes. -/
theorem betbet_c7 {s : DBState} {mid : Nat} {m : Market}
    (hm : s.markets.find? (fun x => x.id = mid) = some m) :
    (∀ now cid wido rv, m.creator_clerk_id ≠ cid →
      resolve_market s now cid mid wido rv =
        .error ⟨403, "Only market creator can resolve"⟩) ∧
    (∀ now wido rv, m.status ≠ "closed" →
      resolve_market s now m.creator_clerk_id mid wido rv =
        .error ⟨400, "Market must be closed to resolve"⟩) := by
  constructor
  · intro now cid wido rv hne
    unfold resolve_market
    rw [hm]
    dsimp only
    rw [if_pos hne]
  · intro now wido rv hne
    unfold resolve_market
    rw [hm]
    dsimp only
    rw [if_neg (fun hn => hn rfl), if_pos hne]

theorem betbet_c7_witness :
    (resolve_market exR0 9 "dave" 1 (some 1) none =
      .error ⟨403, "Only market creator can resolve"⟩) ∧
    (resolve_market exR0 9 "carol" 2 (some 3) none =
      .error ⟨400, "Market must be closed to resolve"⟩) :=
  ⟨(betbet_c7 (m := ⟨1, "carol", "closed", 30, 2, none, none⟩)
      (by simp [exR0, List.find?])).1 9 "dave" (some 1) none (by simp),
   (betbet_c7 (m := ⟨2, "carol", "open", 0, 0, none, none⟩)
      (by simp [exR0, List.find?])).2 9 (some 3) none (by simp)⟩

/-- A successful placement adds its stake to the market's `total_volume`
(and possibly bumps the participant count). -/
lemma place_position_find_market {s : DBState} {now : Nat} {uid : String}
    {mid oid : Nat} {stake odds : ℚ} {pt : String} {pid : Nat}
    {s' : DBState} {p : MarketPosition} {m : Market}
    (hm : s.markets.find? (fun x => x.id = mid) = some m)
    (h : place_position s now uid mid oid stake odds pt pid = .ok (s', p)) :
    ∃ c, s'.markets.find? (fun x => x.id = mid) =
      some { m with total_volume := m.total_volume + stake
                    participant_count := c } := by
  obtain ⟨m', hm', hst, hu, hs, hp, rfl⟩ := place_position_ok_elim h
  rw [hm] at hm'
  injection hm' with hm'
  subst hm'
  have hmid : m.id = mid := by simpa using List.find?_some hm
  refine ⟨if m.participant_count = 0 ∨
      ¬ user_has_positions_in_market (p :: s.positions) uid mid then
        m.participant_count + 1
      else m.participant_count, ?_⟩
  rw [update_market_odds_markets]
  show (s.markets.map _).find? _ = _
  rw [find?_map_pres _ _ _ (fun a => ?_), hm]
  · rw [Option.map_some', if_pos hmid]
  · by_cases ha : a.id = mid <;> simp [ha]

/-- Volume accounting over a request sequence: each successful run of
`place_many` adds the sum of the stakes to the market's `total_volume`. -/
lemma place_many_volume {mid : Nat} :
    ∀ (reqs : List PlaceReq) (s : DBState) (m : Market) (s' : DBState),
      s.markets.find? (fun x => x.id = mid) = some m →
      place_many s mid reqs = .ok s' →
      ∃ m', s'.markets.find? (fun x => x.id = mid) = some m' ∧
        m'.total_volume = m.total_volume + (reqs.map fun r => r.stake).sum
  | [], s, m, s', hm, h => by
    rw [place_many] at h
    injection h with h
    subst h
    exact ⟨m, hm, by simp⟩
  | r :: rs, s, m, s', hm, h => by
    rw [place_many] at h
    cases hpp : place_position s 0 r.user mid r.outcome_id r.stake r.odds
        r.position_type 0 with
    | error e => rw [hpp] at h; simp at h
    | ok pr =>
      obtain ⟨s1, p1⟩ := pr
      rw [hpp] at h
      dsimp only at h
      obtain ⟨c, hm1⟩ := place_position_find_market hm hpp
      obtain ⟨m', hfind, hvol⟩ := place_many_volume rs s1 _ s' hm1 h
      refine ⟨m', hfind, ?_⟩
      rw [hvol]
      simp only [List.map_cons, List.sum_cons]
      ring

/-- C8: starting from a market with `total_volume = 0`, any successful
sequence of placements leaves `total_volume` equal to the sum of the stakes,
and any successful permutation of the same requests reaches that same
volume. -/
theorem betbet_c8 {s : DBState} {mid : Nat} {m : Market}
    {reqs : List PlaceReq} {s' : DBState}
    (hm : s.markets.find? (fun x => x.id = mid) = some m)
    (h0 : m.total_volume = 0)
    (h : place_many s mid reqs = .ok s') :
    (∃ m', s'.markets.find? (fun x => x.id = mid) = some m' ∧
      m'.total_volume = (reqs.map fun r => r.stake).sum) ∧
    (∀ reqs2 s2, reqs2.Perm reqs → place_many s mid reqs2 = .ok s2 →
      ∃ m2, s2.markets.find? (fun x => x.id = mid) = some m2 ∧
        m2.total_volume = (reqs.map fun r => r.stake).sum) := by
  constructor
  · obtain ⟨m', hf, hv⟩ := place_many_volume reqs s m s' hm h
    exact ⟨m', hf, by rw [hv, h0, zero_add]⟩
  · intro reqs2 s2 hperm h2
    obtain ⟨m2, hf, hv⟩ := place_many_volume reqs2 s m s2 hm h2
    refine ⟨m2, hf, ?_⟩
    rw [hv, h0, zero_add]
    exact ((hperm.map fun r => r.stake).sum_eq)

theorem betbet_c8_witness :
    (∃ m', exS1.markets.find? (fun x => x.id = 1) = some m' ∧
      m'.total_volume =
        (([⟨"u", 1, 10, 2, "back"⟩] : List PlaceReq).map fun r => r.stake).sum) ∧
    (∀ reqs2 s2, reqs2.Perm [⟨"u", 1, 10, 2, "back"⟩] →
      place_many exS0 1 reqs2 = .ok s2 →
      ∃ m2, s2.markets.find? (fun x => x.id = 1) = some m2 ∧
        m2.total_volume =
          (([⟨"u", 1, 10, 2, "back"⟩] : List PlaceReq).map fun r => r.stake).sum) :=
  betbet_c8 (m := ⟨1, "carol", "open", 0, 0, none, none⟩)
    (by simp [exS0, List.find?]) rfl place_many_ex_eval

lemma orderbookSide_keys (ps : List MarketPosition) (r : ℚ → ℚ → Prop)
    [DecidableRel r] :
    (orderbookSide ps r).map Prod.fst =
      (ps.map fun p => p.odds).dedup.insertionSort r := by
  unfold orderbookSide
  rw [List.map_map]
  exact List.map_id _

/-- C9: the order book (i) matches the spec's worked example, (ii) always
returns back orders sorted by descending odds and lay orders by ascending
odds, (iii) reads only the (at most 100, most recent first) open positions of
the requested outcome, and (iv) reports as each entry's volume the sum of the
stakes of exactly the positions of that side carrying that odds value. -/
theorem betbet_c9 :
    (get_orderbook exOB 1 1 = ([(2, 15)], [(3/2, 20)])) ∧
    (∀ s mid oid,
      ((get_orderbook s mid oid).1.map Prod.fst).Sorted (· ≥ ·) ∧
      ((get_orderbook s mid oid).2.map Prod.fst).Sorted (· ≤ ·)) ∧
    (∀ s mid oid, get_orderbook s mid oid =
      get_orderbook { s with positions := orderbookPositions s mid oid }
        mid oid) ∧
    (∀ s mid oid q, q ∈ (get_orderbook s mid oid).1 →
      q.2 = ((((orderbookPositions s mid oid).filter
          fun p => p.position_type = "back").filter
            fun p => p.odds = q.1).map fun p => p.stake).sum) ∧
    (∀ s mid oid q, q ∈ (get_orderbook s mid oid).2 →
      q.2 = ((((orderbookPositions s mid oid).filter
          fun p => ¬ p.position_type = "back").filter
            fun p => p.odds = q.1).map fun p => p.stake).sum) := by
  refine ⟨?_, ?_, ?_, ?_, ?_⟩
  · simp [get_orderbook, orderbookPositions, orderbookSide, exOB,
      List.insertionSort, List.orderedInsert, List.dedup, List.pwFilter]
    norm_num
  · intro s mid oid
    constructor
    · rw [show (get_orderbook s mid oid).1 =
          orderbookSide ((orderbookPositions s mid oid).filter
            fun p => p.position_type = "back") (· ≥ ·) from rfl,
        orderbookSide_keys]
      exact List.sorted_insertionSort _ _
    · rw [show (get_orderbook s mid oid).2 =
          orderbookSide ((orderbookPositions s mid oid).filter
            fun p => ¬ p.position_type = "back") (· ≤ ·) from rfl,
        orderbookSide_keys]
      exact List.sorted_insertionSort _ _
  · intro s mid oid
    have hOP : orderbookPositions
        { s with positions := orderbookPositions s mid oid } mid oid =
        orderbookPositions s mid oid := by
      unfold orderbookPositions
      rw [List.filter_eq_self.mpr fun x hx => ?_]
      · rw [List.take_take]; norm_num
      · have := List.mem_of_mem_take hx
        exact (List.mem_filter.mp this).2
    unfold get_orderbook
    rw [hOP]
  · intro s mid oid q hq
    unfold get_orderbook orderbookSide at hq
    dsimp only at hq
    rw [List.mem_map] at hq
    obtain ⟨o, ho, rfl⟩ := hq
    rfl
  · intro s mid oid q hq
    unfold get_orderbook orderbookSide at hq
    dsimp only at hq
    rw [List.mem_map] at hq
    obtain ⟨o, ho, rfl⟩ := hq
    rfl

theorem betbet_c9_witness :
    ((2:ℚ), (15:ℚ)) ∈ (get_orderbook exOB 1 1).1 ∧
    (15:ℚ) = ((((orderbookPositions exOB 1 1).filter
        fun p => p.position_type = "back").filter
          fun p => p.odds = 2).map fun p => p.stake).sum := by
  have hmem : ((2:ℚ), (15:ℚ)) ∈ (get_orderbook exOB 1 1).1 := by
    rw [betbet_c9.1]
    simp
  exact ⟨hmem, betbet_c9.2.2.2.1 exOB 1 1 (2, 15) hmem⟩

/-- C10: any `position_type` other than `"back"` — not just `"lay"` — is
accepted by `place_position` (no value is rejected as invalid input), is
priced with the lay formula `stake * (odds - 1)`, and is grouped by
`get_orderbook` on the lay side. -/
theorem betbet_c10 {s : DBState} {now : Nat} {uid : String} {mid oid : Nat}
    {stake odds : ℚ} {pt : String} {pid : Nat} {m : Market}
    (hm : s.markets.find? (fun x => x.id = mid) = some m)
    (hopen : m.status = "open") (hu : uid ∈ s.profiles) (hs : 0 < stake)
    (hpt : pt ≠ "back") :
    (∃ s' p, place_position s now uid mid oid stake odds pt pid =
        .ok (s', p) ∧
      p.position_type = pt ∧ p.potential_payout = stake * (odds - 1)) ∧
    (∀ t mid2 oid2 q, q ∈ orderbookPositions t mid2 oid2 →
      ¬ q.position_type = "back" →
      q.odds ∈ (get_orderbook t mid2 oid2).2.map Prod.fst) := by
  constructor
  · cases hres : place_position s now uid mid oid stake odds pt pid with
    | error e =>
      exfalso
      unfold place_position at hres
      rw [hm] at hres
      dsimp only at hres
      rw [if_neg (fun hne => hne hopen), if_neg (fun hn => hn hu),
        if_neg (not_le.mpr hs)] at hres
      simp at hres
    | ok pr =>
      obtain ⟨s', p⟩ := pr
      obtain ⟨m', hm', hst', hu', hs'', hp, hsval⟩ :=
        place_position_ok_elim hres
      exact ⟨s', p, rfl, by rw [hp], by rw [hp]; simp [hpt]⟩
  · intro t mid2 oid2 q hq hqt
    rw [show (get_orderbook t mid2 oid2).2 =
        orderbookSide ((orderbookPositions t mid2 oid2).filter
          fun p => ¬ p.position_type = "back") (· ≤ ·) from rfl,
      orderbookSide_keys, List.mem_insertionSort]
    exact List.mem_dedup.mpr
      (List.mem_map.mpr ⟨q, List.mem_filter.mpr ⟨hq, by simpa using hqt⟩, rfl⟩)

theorem betbet_c10_witness :
    (∃ s' p, place_position exS0 0 "u" 1 1 10 2 "banana" 0 = .ok (s', p) ∧
      p.position_type = "banana" ∧ p.potential_payout = 10 * (2 - 1)) ∧
    (∀ t mid2 oid2 q, q ∈ orderbookPositions t mid2 oid2 →
      ¬ q.position_type = "back" →
      q.odds ∈ (get_orderbook t mid2 oid2).2.map Prod.fst) :=
  betbet_c10 (m := ⟨1, "carol", "open", 0, 0, none, none⟩)
    (by simp [exS0, List.find?]) rfl (by simp [exS0]) (by norm_num) (by simp)
